import Mathlib

/-!
Verification development for the GlideIM client session registry and manager
(`im/client/client_manager.go`).

The Go code is shallowly embedded as pure Lean functions over an explicit
`World` state.  Go's two-level map `clients : map[int64]*devices`,
`devices.ds : map[int64]IClient` is embedded as association lists keyed by
`Int`; a Go map has unique keys and the embedding's update operations
(`alistPut`, `alistRemove`) preserve that discipline.  `IClient` values are
held by pointer in Go and may be referenced from several slots, so sessions
live in a side store (`World.store`, indexed by allocation order) and the
registry maps device ids to store indices; pointer aliasing is then automatic.
Go map iteration order is unspecified; the embedding fixes insertion order,
which suffices to witness order-dependent behaviour of the broadcast loop.
`int64` counters are embedded as `Int` (no operation here approaches the
64-bit range, and only equality and comparisons of ids are used).
-/

set_option maxHeartbeats 1000000

namespace GlideIM

/-- Message actions used by the manager: `message.ActionNotifyKickOut` and
`message.ActionNotifyAccountLogin` (package `im/message`). -/
inductive Action where
  | notifyKickOut
  | notifyAccountLogin
deriving DecidableEq

/-- A chat message as built by `message.NewMessage(seq, action, data)`; the
manager only constructs messages and passes them through. -/
structure Message where
  seq : Int
  action : Action
  data : String
deriving DecidableEq

/-- The typed errors of the client package: `ErrClientClosed` and
`ErrClientNotExist` (`client_manager.go` lines 16-17).  A `none` result of an
operation returning `Option Err` is Go's `nil` error. -/
inductive Err where
  | clientClosed
  | clientNotExist
deriving DecidableEq

/-- The observable state of one `Client` (interface `IClient`): its mutable
identity (`SetID`), whether the connection is closed (`Closed()`), whether
termination was requested (`Exit()`), and the queue of messages accepted so
far (`EnqueueMessage`).  The `Client` implementation itself is outside the
excerpted core; these fields follow the Session capability set of the spec. -/
structure ClientState where
  uid : Int
  device : Int
  closed : Bool
  exited : Bool
  queue : List Message
deriving DecidableEq

/-- Association-list lookup, embedding Go map indexing `m[k]`. -/
def alistGet {α : Type} : List (Int × α) → Int → Option α
  | [], _ => none
  | p :: t, k => if p.1 = k then some p.2 else alistGet t k

/-- Association-list insert-or-replace, embedding Go map assignment
`m[k] = v`. -/
def alistPut {α : Type} : List (Int × α) → Int → α → List (Int × α)
  | [], k, v => [(k, v)]
  | p :: t, k, v => if p.1 = k then (k, v) :: t else p :: alistPut t k v

/-- Association-list removal, embedding Go `delete(m, k)`. -/
def alistRemove {α : Type} : List (Int × α) → Int → List (Int × α)
  | [], _ => []
  | p :: t, k => if p.1 = k then alistRemove t k else p :: alistRemove t k

/-- A `devices` value: per-user map from device id to the session holding that
slot (a store index standing for the `IClient` pointer). -/
abbrev Devices := List (Int × Nat)

/-- The `clients` registry map from user id to that user's `devices`. -/
abbrev Registry := List (Int × Devices)

/-- The whole mutable state touched by `DefaultClientManager`: the registry,
the three counters (`clientOnline`, `messageSent`, `maxOnline`), the session
store, and the temporary-id source.  `startAt` is a wall-clock timestamp and
is omitted (time is external and no claim mentions it). -/
structure World where
  clients : Registry
  clientOnline : Int
  messageSent : Int
  maxOnline : Int
  store : List ClientState
  nextTemp : Int
deriving DecidableEq

/-- The state of a freshly constructed manager (`NewDefaultManager`): empty
registry, all counters zero.  The temporary-id counter starts at 1000000 so
that examples keep the temporary and permanent namespaces visibly apart (the
code itself enforces no such separation). -/
def freshWorld : World :=
  { clients := [], clientOnline := 0, messageSent := 0, maxOnline := 0
    store := [], nextTemp := 1000000 }

/-- Modelled from the spec: `uid.GenTemp()` (the IDGenerator capability; its
implementation is outside the excerpted core).  Draws the next identifier
from a counter, so successive calls never collide. -/
def genTemp (w : World) : Int × World :=
  (w.nextTemp, { w with nextTemp := w.nextTemp + 1 })

/-- Embeds `clients.get(uid)` (lines 242-250): returns the `devices` entry only when
it is present and non-empty, else `nil`. -/
def clientsGet (w : World) (u : Int) : Option Devices :=
  match alistGet w.clients u with
  | some cl => if cl.length ≠ 0 then some cl else none
  | none => none

/-- The registry after `clients.add(uid, device, c)` (lines 259-270): put into
the existing `devices` if the entry exists (even an empty one), else create a
fresh singleton `devices`. -/
def clientsAddMap (r : Registry) (u d : Int) (sid : Nat) : Registry :=
  match alistGet r u with
  | some cs => alistPut r u (alistPut cs d sid)
  | none => alistPut r u [(d, sid)]

/-- Embeds `clients.add(uid, device, c)` on the whole state. -/
def clientsAdd (w : World) (u d : Int) (sid : Nat) : World :=
  { w with clients := clientsAddMap w.clients u d sid }

/-- The registry after `clients.delete(uid, device)` (lines 272-282): remove
the slot and garbage-collect the user entry when its `devices` became empty. -/
def clientsDeleteMap (r : Registry) (u d : Int) : Registry :=
  match alistGet r u with
  | some cs =>
    if (alistRemove cs d).length = 0 then alistRemove r u
    else alistPut r u (alistRemove cs d)
  | none => r

/-- Embeds `clients.delete(uid, device)` on the whole state. -/
def clientsDelete (w : World) (u d : Int) : World :=
  { w with clients := clientsDeleteMap w.clients u d }

/-- Mutation performed through a held `*devices` pointer (Go code that calls
`logged.remove` / `logged.put` directly): the registry entry for `u` is
overwritten with the mutated `devices`, with no garbage collection. -/
def regUpdateDevices (w : World) (u : Int) (ds : Devices) : World :=
  { w with clients := alistPut w.clients u ds }

/-- Embeds `IClient.SetID(uid, device)` on the session at store index `sid`. -/
def setID (w : World) (sid : Nat) (u d : Int) : World :=
  match w.store.get? sid with
  | some s => { w with store := w.store.set sid { s with uid := u, device := d } }
  | none => w

/-- Embeds `IClient.Exit()`: records that termination was requested. -/
def exitClient (w : World) (sid : Nat) : World :=
  match w.store.get? sid with
  | some s => { w with store := w.store.set sid { s with exited := true } }
  | none => w

/-- Embeds `IClient.Closed()` for the session at store index `sid`. -/
def isClosed (w : World) (sid : Nat) : Bool :=
  match w.store.get? sid with
  | some s => s.closed
  | none => false

/-- Modelled from the spec: `IClient.EnqueueMessage(msg)` (the `Client`
implementation is outside the excerpted core).  A closed Session drops the
message and reports `ClientClosed`; an open one accepts it onto its queue and
returns `nil`.  A store index outside the store never arises from the manager
operations (every registered index is allocated by them); that case is a
no-op. -/
def clientEnqueue (w : World) (sid : Nat) (m : Message) : World × Option Err :=
  match w.store.get? sid with
  | some s =>
    if s.closed then (w, some Err.clientClosed)
    else ({ w with store := w.store.set sid { s with queue := s.queue ++ [m] } }, none)
  | none => (w, none)

/-- The body of `ds.foreach(...)` in `EnqueueMessage` (lines 135-146), run
over the device list in iteration order, threading the world and the `err`
variable: a device failing the (dead, since `device = 0` here) filter is
skipped; a closed device sets `err = ErrClientClosed`; an open one overwrites
`err` with its own enqueue result. -/
def foreachDeliver (dv : Int) (m : Message) :
    World × Option Err → List (Int × Nat) → World × Option Err
  | acc, [] => acc
  | acc, p :: t =>
    foreachDeliver dv m
      (if dv ≠ 0 ∧ p.1 ≠ dv then acc
       else if isClosed acc.1 p.2 then (acc.1, some Err.clientClosed)
       else clientEnqueue acc.1 p.2 m) t

/-- Embeds the `atomic.AddInt64(&c.messageSent, 1)` performed first by every
`EnqueueMessage` call (line 121). -/
def bumpSent (w : World) : World := { w with messageSent := w.messageSent + 1 }

/-- Embeds `DefaultClientManager.EnqueueMessage(uid, device, msg)` (lines 120-148):
bump `messageSent`, fail `ClientNotExist` when the user has no devices or a
specific requested device is missing, deliver directly for a non-zero device,
and otherwise run the broadcast loop over all devices. -/
def enqueueMessage (w0 : World) (u dv : Int) (m : Message) : World × Option Err :=
  match clientsGet (bumpSent w0) u with
  | none => (bumpSent w0, some Err.clientNotExist)
  | some ds =>
    if ds.length = 0 then (bumpSent w0, some Err.clientNotExist)
    else if dv ≠ 0 then
      match alistGet ds dv with
      | none => (bumpSent w0, some Err.clientNotExist)
      | some sid => clientEnqueue (bumpSent w0) sid m
    else foreachDeliver dv m (bumpSent w0, none) ds

/-- Modelled from the spec: the package-level `EnqueueMessage(uid, msg)`
helper used for the "new device signed in" notification (its definition is
outside the excerpted core); it delivers through the manager to all of the
user's devices, best effort, discarding the error. -/
def pkgEnqueueMessage (w : World) (u : Int) (m : Message) : World :=
  (enqueueMessage w u 0 m).1

/-- The kick-out notification built at line 73. -/
def kickOutMsg : Message :=
  { seq := 0, action := Action.notifyKickOut
    data := "Your account is logged in on another device" }

/-- The account-login notification built at lines 78-79
(`strconv.FormatInt(device, 10)` is `toString`). -/
def accountLoginMsg (dv : Int) : Message :=
  { seq := 0, action := Action.notifyAccountLogin
    data := "multi device login, device=" ++ toString dv }

/-- A freshly created `Client` for identity `(u, 0)`: open, not exited,
empty queue. -/
def initSession (u : Int) : ClientState :=
  { uid := u, device := 0, closed := false, exited := false, queue := [] }

/-- Embeds `DefaultClientManager.ClientConnected(conn)` (lines 36-48): allocate a
temporary id, build a `Client` for the connection with identity
`(tempId, 0)`, register it at `(tempId, 0)`, and return the temporary id.
The connection handle and `Run()` are external I/O and carry no manager
state. -/
def clientConnected (w : World) : World × Int :=
  let t := (genTemp w).1
  let w1 := (genTemp w).2
  let sid := w1.store.length
  let w2 := { w1 with store := w1.store ++ [initSession t] }
  (clientsAdd w2 t 0 sid, t)

/-- Embeds `DefaultClientManager.AddClient(uid, cs)` (lines 50-53): register an
externally built session at `(uid, 0)` and increment `clientOnline`.  The
embedding allocates a fresh open session to stand for the supplied
`IClient`. -/
def addClient (w : World) (u : Int) : World :=
  let sid := w.store.length
  let w1 := { w with store := w.store ++ [initSession u] }
  let w2 := clientsAdd w1 u 0 sid
  { w2 with clientOnline := w2.clientOnline + 1 }

/-- Lines 68-76 of `ClientSignIn`: the multi-device login mutex.  If a
session `existing` occupies `(uid, device)`, it is re-identified with a fresh
temporary id (`SetID(uid.GenTemp(), 0)`), sent the kick-out notification
(best effort, error discarded), asked to terminate (`Exit()`), and its slot
is removed through the held `logged` `*devices` pointer (rendered as a
registry overwrite at key `uid`, with no garbage collection).  Returns the
new state together with the mutated `logged` value. -/
def signInConflict (w : World) (u dv : Int) (logged : Devices) : World × Devices :=
  match alistGet logged dv with
  | some esid =>
    (regUpdateDevices
       (exitClient
         (clientEnqueue (setID (genTemp w).2 esid (genTemp w).1 0) esid kickOutMsg).1
         esid)
       u (alistRemove logged dv),
     alistRemove logged dv)
  | none => (w, logged)

/-- Lines 64-85 of `ClientSignIn`: bind the signing-in session `csid` into
`(uid, device)`.  With an existing non-empty registration: run the conflict
mutex, send the account-login notification to the remaining devices when any
are left (reading the registry mid-mutation, as the Go interleaving does),
then `logged.put(device, client)`.  Otherwise `clients.add(uid, device,
client)`. -/
def signInBind (w : World) (u dv : Int) (csid : Nat) : World :=
  match clientsGet w u with
  | some logged =>
    regUpdateDevices
      (if (signInConflict w u dv logged).2.length > 0
       then pkgEnqueueMessage (signInConflict w u dv logged).1 u (accountLoginMsg dv)
       else (signInConflict w u dv logged).1)
      u (alistPut (signInConflict w u dv logged).2 dv csid)
  | none => clientsAdd w u dv csid

/-- Lines 90-95 of `ClientSignIn`: the `clientOnline` increment followed by the
read-compare-write update of `maxOnline`. -/
def signInFinish (w5 : World) : World :=
  let w6 := { w5 with clientOnline := w5.clientOnline + 1 }
  if w6.maxOnline < w6.clientOnline then { w6 with maxOnline := w6.clientOnline } else w6

/-- Embeds `DefaultClientManager.ClientSignIn(id, uid, device)` (lines 56-97).
Returns `none` exactly when the Go code would dereference a nil `IClient`
(a temporary entry with no device-0 slot, which no reachable state produces):
the process would panic, so no post-state exists.  Otherwise returns the
post-state after the bind, `client.SetID(uid, device)`, deletion of the
temporary entry, the `clientOnline` increment and the `maxOnline`
read-compare-write; the Go function returns a `nil` error on every
non-panicking path. -/
def clientSignIn (w : World) (id u dv : Int) : Option World :=
  match clientsGet w id with
  | none => some w
  | some tempDs =>
    if tempDs.length = 0 then some w
    else
      match alistGet tempDs 0 with
      | none => none
      | some csid =>
        some (signInFinish (clientsDelete (setID (signInBind w u dv csid) csid u dv) id 0))

/-- Embeds `DefaultClientManager.ClientLogout(uid, device)` (lines 99-117): fail open
when the user or device is unregistered; otherwise re-identify the session
with a fresh temporary id, request termination, remove the slot through the
held `*devices` pointer (`cl.remove(device)` — note: not `clients.delete`, so
an emptied `devices` entry is not garbage-collected), and decrement
`clientOnline`.  Go returns a `nil` error on every path. -/
def clientLogout (w : World) (u dv : Int) : World :=
  match clientsGet w u with
  | none => w
  | some cl =>
    if cl.length = 0 then w
    else
      match alistGet cl dv with
      | none => w
      | some sid =>
        let t := (genTemp w).1
        let w1 := (genTemp w).2
        let w2 := setID w1 sid t 0
        let w3 := exitClient w2 sid
        let w4 := regUpdateDevices w3 u (alistRemove cl dv)
        { w4 with clientOnline := w4.clientOnline - 1 }

/-- One manager operation of a sequential trace. -/
inductive Op where
  | connect
  | addClient (u : Int)
  | signIn (id u dv : Int)
  | logout (u dv : Int)
  | enqueue (u dv : Int) (m : Message)
deriving DecidableEq

/-- Sequential small-step semantics of one operation; `none` is a process
panic (only `ClientSignIn` has such a path). -/
def step (w : World) : Op → Option World
  | Op.connect => some (clientConnected w).1
  | Op.addClient u => some (addClient w u)
  | Op.signIn id u dv => clientSignIn w id u dv
  | Op.logout u dv => some (clientLogout w u dv)
  | Op.enqueue u dv m => some (enqueueMessage w u dv m).1

/-- Run a sequential trace of operations. -/
def run (w : World) : List Op → Option World
  | [] => some w
  | op :: ops =>
    match step w op with
    | some w1 => run w1 ops
    | none => none

/-- The predicate of invariant I5: no user entry of the registry maps to an
empty DeviceSet. -/
def NoEmptyDS (w : World) : Prop :=
  ∀ p ∈ w.clients, p.2 ≠ ([] : Devices)

/-- The identity-and-termination view of the session at store index `k`:
`(uid, device, exited)`.  Message delivery changes only queues, so this view
is stable under enqueues. -/
def idStat (w : World) (k : Nat) : Option (Int × Int × Bool) :=
  (w.store.get? k).map (fun s => (s.uid, s.device, s.exited))

/-! ### Concrete states reached by short traces, used to instantiate the
theorems below on executable inputs -/

/-- One user (5) with a single device 1: connect, then sign in. -/
def oneUserWorld : World :=
  (run freshWorld [Op.connect, Op.signIn 1000000 5 1]).getD freshWorld

/-- User 5 signed in at device 1, plus a second, not yet signed-in
connection (temporary id 1000001, store index 1). -/
def pendingSecondWorld : World :=
  (run freshWorld [Op.connect, Op.signIn 1000000 5 1, Op.connect]).getD freshWorld

/-- User 7 with two devices whose sessions' `closed` flags differ; device 1
(iterated first in the broadcast loop) is closed, device 2 is open.  Closed
flags are set by the transport, outside the manager, so the state is built
directly. -/
def closedFirstWorld : World :=
  { clients := [(7, [(1, 0), (2, 1)])], clientOnline := 2, messageSent := 0
    maxOnline := 2
    store := [{ uid := 7, device := 1, closed := true, exited := false, queue := [] },
              { uid := 7, device := 2, closed := false, exited := false, queue := [] }]
    nextTemp := 1000000 }

/-- User 7 with two devices; device 1 (iterated first) is open, device 2
(iterated last) is closed. -/
def closedLastWorld : World :=
  { clients := [(7, [(1, 0), (2, 1)])], clientOnline := 2, messageSent := 0
    maxOnline := 2
    store := [{ uid := 7, device := 1, closed := false, exited := false, queue := [] },
              { uid := 7, device := 2, closed := true, exited := false, queue := [] }]
    nextTemp := 1000000 }

/-- A trace with two found sign-ins (users 5 and 6) and one found sign-out. -/
def pairingTrace : List Op :=
  [Op.connect, Op.signIn 1000000 5 1, Op.connect, Op.signIn 1000001 6 1, Op.logout 5 1]

/-- The state reached by `pairingTrace`. -/
def pairingWorld : World :=
  (run freshWorld pairingTrace).getD freshWorld

/-- Connect, sign user 5 in at device 1, sign out again: the trace whose
final registry retains the emptied entry for user 5. -/
def logoutLastDeviceTrace : List Op :=
  [Op.connect, Op.signIn 1000000 5 1, Op.logout 5 1]

/-- The state reached by `logoutLastDeviceTrace`. -/
def logoutLastDeviceWorld : World :=
  (run freshWorld logoutLastDeviceTrace).getD freshWorld

/-! ### Association-list lemmas -/

theorem alistGet_put_self {α : Type} (l : List (Int × α)) (k : Int) (v : α) :
    alistGet (alistPut l k v) k = some v := by
  induction l with
  | nil => simp [alistPut, alistGet]
  | cons p t ih =>
    by_cases h : p.1 = k
    · simp [alistPut, alistGet, h]
    · simp [alistPut, alistGet, h, ih]

theorem alistGet_put_ne {α : Type} (l : List (Int × α)) (k k' : Int) (v : α)
    (h : k' ≠ k) : alistGet (alistPut l k v) k' = alistGet l k' := by
  have hk : k ≠ k' := Ne.symm h
  induction l with
  | nil => simp [alistPut, alistGet, hk]
  | cons p t ih =>
    by_cases hp : p.1 = k
    · have hp' : p.1 ≠ k' := by rw [hp]; exact hk
      simp [alistPut, alistGet, hp, hp', hk]
    · by_cases hp' : p.1 = k'
      · simp [alistPut, alistGet, hp, hp', h]
      · simp [alistPut, alistGet, hp, hp', ih]

theorem alistGet_remove_self {α : Type} (l : List (Int × α)) (k : Int) :
    alistGet (alistRemove l k) k = none := by
  induction l with
  | nil => simp [alistRemove, alistGet]
  | cons p t ih =>
    by_cases h : p.1 = k
    · simp [alistRemove, h, ih]
    · simp [alistRemove, alistGet, h, ih]

theorem alistGet_remove_ne {α : Type} (l : List (Int × α)) (k k' : Int)
    (h : k' ≠ k) : alistGet (alistRemove l k) k' = alistGet l k' := by
  induction l with
  | nil => simp [alistRemove]
  | cons p t ih =>
    have hk : k ≠ k' := Ne.symm h
    by_cases hp : p.1 = k
    · have hpk : p.1 ≠ k' := by rw [hp]; exact hk
      simp [alistRemove, alistGet, hp, hpk, hk, ih]
    · by_cases hp' : p.1 = k'
      · simp [alistRemove, alistGet, hp, hp', h]
      · simp [alistRemove, alistGet, hp, hp', ih]

theorem alistPut_ne_nil {α : Type} (l : List (Int × α)) (k : Int) (v : α) :
    alistPut l k v ≠ [] := by
  cases l with
  | nil => simp [alistPut]
  | cons p t =>
    by_cases h : p.1 = k <;> simp [alistPut, h]

theorem alistPut_put_same {α : Type} (l : List (Int × α)) (k : Int) (v v' : α) :
    alistPut (alistPut l k v) k v' = alistPut l k v' := by
  induction l with
  | nil => simp [alistPut]
  | cons p t ih =>
    by_cases h : p.1 = k
    · simp [alistPut, h]
    · simp [alistPut, h, ih]

theorem mem_alistPut {α : Type} (l : List (Int × α)) (k : Int) (v : α)
    (p : Int × α) (h : p ∈ alistPut l k v) : p ∈ l ∨ p = (k, v) := by
  induction l with
  | nil => simp [alistPut] at h; simp [h]
  | cons q t ih =>
    by_cases hq : q.1 = k
    · simp [alistPut, hq] at h
      rcases h with h | h
      · right; simp [h]
      · left; simp [h]
    · simp [alistPut, hq] at h
      rcases h with h | h
      · left; simp [h]
      · rcases ih h with h' | h'
        · left; simp [h']
        · right; exact h'

theorem mem_alistRemove {α : Type} (l : List (Int × α)) (k : Int)
    (p : Int × α) (h : p ∈ alistRemove l k) : p ∈ l := by
  induction l with
  | nil => simp [alistRemove] at h
  | cons q t ih =>
    by_cases hq : q.1 = k
    · simp [alistRemove, hq] at h
      exact List.mem_cons_of_mem _ (ih h)
    · simp [alistRemove, hq] at h
      rcases h with h | h
      · simp [h]
      · exact List.mem_cons_of_mem _ (ih h)

/-! ### Projection lemmas for the state helpers -/

theorem clientsGet_ne_nil {w : World} {u : Int} {ds : Devices}
    (h : clientsGet w u = some ds) : ds ≠ [] := by
  unfold clientsGet at h
  cases hg : alistGet w.clients u with
  | none => rw [hg] at h; exact absurd h (by simp)
  | some cl =>
    rw [hg] at h
    by_cases hl : cl.length ≠ 0
    · simp [hl] at h
      subst h
      intro hnil
      rw [hnil] at hl; simp at hl
    · simp [hl] at h

@[simp] theorem clientsAdd_clientOnline (w : World) (u d : Int) (sid : Nat) :
    (clientsAdd w u d sid).clientOnline = w.clientOnline := rfl

@[simp] theorem clientsAdd_maxOnline (w : World) (u d : Int) (sid : Nat) :
    (clientsAdd w u d sid).maxOnline = w.maxOnline := rfl

@[simp] theorem clientsAdd_messageSent (w : World) (u d : Int) (sid : Nat) :
    (clientsAdd w u d sid).messageSent = w.messageSent := rfl

@[simp] theorem clientsAdd_store (w : World) (u d : Int) (sid : Nat) :
    (clientsAdd w u d sid).store = w.store := rfl

@[simp] theorem clientsDelete_clientOnline (w : World) (u d : Int) :
    (clientsDelete w u d).clientOnline = w.clientOnline := rfl

@[simp] theorem clientsDelete_maxOnline (w : World) (u d : Int) :
    (clientsDelete w u d).maxOnline = w.maxOnline := rfl

@[simp] theorem clientsDelete_store (w : World) (u d : Int) :
    (clientsDelete w u d).store = w.store := rfl

@[simp] theorem regUpdateDevices_clientOnline (w : World) (u : Int) (ds : Devices) :
    (regUpdateDevices w u ds).clientOnline = w.clientOnline := rfl

@[simp] theorem regUpdateDevices_maxOnline (w : World) (u : Int) (ds : Devices) :
    (regUpdateDevices w u ds).maxOnline = w.maxOnline := rfl

@[simp] theorem regUpdateDevices_store (w : World) (u : Int) (ds : Devices) :
    (regUpdateDevices w u ds).store = w.store := rfl

theorem setID_clientOnline (w : World) (sid : Nat) (u d : Int) :
    (setID w sid u d).clientOnline = w.clientOnline := by
  unfold setID; cases w.store.get? sid <;> rfl

theorem setID_maxOnline (w : World) (sid : Nat) (u d : Int) :
    (setID w sid u d).maxOnline = w.maxOnline := by
  unfold setID; cases w.store.get? sid <;> rfl

theorem setID_clients (w : World) (sid : Nat) (u d : Int) :
    (setID w sid u d).clients = w.clients := by
  unfold setID; cases w.store.get? sid <;> rfl

theorem setID_messageSent (w : World) (sid : Nat) (u d : Int) :
    (setID w sid u d).messageSent = w.messageSent := by
  unfold setID; cases w.store.get? sid <;> rfl

theorem exitClient_clientOnline (w : World) (sid : Nat) :
    (exitClient w sid).clientOnline = w.clientOnline := by
  unfold exitClient; cases w.store.get? sid <;> rfl

theorem exitClient_maxOnline (w : World) (sid : Nat) :
    (exitClient w sid).maxOnline = w.maxOnline := by
  unfold exitClient; cases w.store.get? sid <;> rfl

theorem exitClient_clients (w : World) (sid : Nat) :
    (exitClient w sid).clients = w.clients := by
  unfold exitClient; cases w.store.get? sid <;> rfl

theorem clientEnqueue_clientOnline (w : World) (sid : Nat) (m : Message) :
    (clientEnqueue w sid m).1.clientOnline = w.clientOnline := by
  unfold clientEnqueue
  cases h : w.store.get? sid with
  | none => rfl
  | some s => by_cases hc : s.closed <;> simp [hc]

theorem clientEnqueue_maxOnline (w : World) (sid : Nat) (m : Message) :
    (clientEnqueue w sid m).1.maxOnline = w.maxOnline := by
  unfold clientEnqueue
  cases h : w.store.get? sid with
  | none => rfl
  | some s => by_cases hc : s.closed <;> simp [hc]

theorem clientEnqueue_clients (w : World) (sid : Nat) (m : Message) :
    (clientEnqueue w sid m).1.clients = w.clients := by
  unfold clientEnqueue
  cases h : w.store.get? sid with
  | none => rfl
  | some s => by_cases hc : s.closed <;> simp [hc]

theorem clientEnqueue_messageSent (w : World) (sid : Nat) (m : Message) :
    (clientEnqueue w sid m).1.messageSent = w.messageSent := by
  unfold clientEnqueue
  cases h : w.store.get? sid with
  | none => rfl
  | some s => by_cases hc : s.closed <;> simp [hc]

/-! ### Frame lemmas: message delivery never touches the registry or the
online counters -/

theorem foreachDeliver_frame (dv : Int) (m : Message) (l : List (Int × Nat))
    (acc : World × Option Err) :
    (foreachDeliver dv m acc l).1.clients = acc.1.clients ∧
    (foreachDeliver dv m acc l).1.clientOnline = acc.1.clientOnline ∧
    (foreachDeliver dv m acc l).1.maxOnline = acc.1.maxOnline ∧
    (foreachDeliver dv m acc l).1.messageSent = acc.1.messageSent := by
  induction l generalizing acc with
  | nil => exact ⟨rfl, rfl, rfl, rfl⟩
  | cons p t ih =>
    have hstep : foreachDeliver dv m acc (p :: t) =
        foreachDeliver dv m
          (if dv ≠ 0 ∧ p.1 ≠ dv then acc
           else if isClosed acc.1 p.2 then (acc.1, some Err.clientClosed)
           else clientEnqueue acc.1 p.2 m) t := rfl
    rw [hstep]
    by_cases h1 : dv ≠ 0 ∧ p.1 ≠ dv
    · rw [if_pos h1]
      exact ih acc
    · rw [if_neg h1]
      by_cases h2 : isClosed acc.1 p.2 = true
      · rw [if_pos h2]
        exact ih (acc.1, some Err.clientClosed)
      · rw [if_neg h2]
        rcases ih (clientEnqueue acc.1 p.2 m) with ⟨a, b, c, d⟩
        refine ⟨?_, ?_, ?_, ?_⟩
        · rw [a, clientEnqueue_clients]
        · rw [b, clientEnqueue_clientOnline]
        · rw [c, clientEnqueue_maxOnline]
        · rw [d, clientEnqueue_messageSent]

theorem enqueueMessage_frame (w : World) (u dv : Int) (m : Message) :
    (enqueueMessage w u dv m).1.clients = w.clients ∧
    (enqueueMessage w u dv m).1.clientOnline = w.clientOnline ∧
    (enqueueMessage w u dv m).1.maxOnline = w.maxOnline ∧
    (enqueueMessage w u dv m).1.messageSent = w.messageSent + 1 := by
  unfold enqueueMessage
  cases h : clientsGet (bumpSent w) u with
  | none => exact ⟨rfl, rfl, rfl, rfl⟩
  | some ds =>
    dsimp only
    by_cases hl : ds.length = 0
    · rw [if_pos hl]
      exact ⟨rfl, rfl, rfl, rfl⟩
    · rw [if_neg hl]
      by_cases hd : dv ≠ 0
      · rw [if_pos hd]
        cases hget : alistGet ds dv with
        | none => exact ⟨rfl, rfl, rfl, rfl⟩
        | some sid =>
          refine ⟨?_, ?_, ?_, ?_⟩
          · rw [clientEnqueue_clients]; rfl
          · rw [clientEnqueue_clientOnline]; rfl
          · rw [clientEnqueue_maxOnline]; rfl
          · rw [clientEnqueue_messageSent]; rfl
      · rw [if_neg hd]
        exact foreachDeliver_frame dv m ds (bumpSent w, none)

theorem pkgEnqueueMessage_clients (w : World) (u : Int) (m : Message) :
    (pkgEnqueueMessage w u m).clients = w.clients :=
  (enqueueMessage_frame w u 0 m).1

theorem pkgEnqueueMessage_clientOnline (w : World) (u : Int) (m : Message) :
    (pkgEnqueueMessage w u m).clientOnline = w.clientOnline :=
  (enqueueMessage_frame w u 0 m).2.1

theorem pkgEnqueueMessage_maxOnline (w : World) (u : Int) (m : Message) :
    (pkgEnqueueMessage w u m).maxOnline = w.maxOnline :=
  (enqueueMessage_frame w u 0 m).2.2.1

/-! ### Counter effect of each manager operation -/

theorem clientConnected_clientOnline (w : World) :
    (clientConnected w).1.clientOnline = w.clientOnline := rfl

theorem clientConnected_maxOnline (w : World) :
    (clientConnected w).1.maxOnline = w.maxOnline := rfl

theorem addClient_clientOnline (w : World) (u : Int) :
    (addClient w u).clientOnline = w.clientOnline + 1 := rfl

theorem addClient_maxOnline (w : World) (u : Int) :
    (addClient w u).maxOnline = w.maxOnline := rfl

theorem clientLogout_counters (w : World) (u dv : Int) :
    ((∃ cl, clientsGet w u = some cl ∧ (alistGet cl dv).isSome) →
      (clientLogout w u dv).clientOnline = w.clientOnline - 1 ∧
      (clientLogout w u dv).maxOnline = w.maxOnline) ∧
    ((¬ ∃ cl, clientsGet w u = some cl ∧ (alistGet cl dv).isSome) →
      clientLogout w u dv = w) := by
  unfold clientLogout
  cases hg : clientsGet w u with
  | none =>
    constructor
    · rintro ⟨cl, hcl, -⟩; exact absurd hcl (by simp [hg])
    · intro; rfl
  | some cl =>
    have hnil : cl ≠ [] := clientsGet_ne_nil hg
    have hlen : ¬ cl.length = 0 := by simpa using hnil
    simp only [hlen, if_false]
    cases hd : alistGet cl dv with
    | none =>
      constructor
      · rintro ⟨cl', hcl', hs⟩
        cases hcl'
        rw [hd] at hs; simp at hs
      · intro; rfl
    | some sid =>
      constructor
      · intro
        constructor
        · show (regUpdateDevices (exitClient (setID (genTemp w).2 sid (genTemp w).1 0) sid) u
            (alistRemove cl dv)).clientOnline - 1 = w.clientOnline - 1
          rw [regUpdateDevices_clientOnline, exitClient_clientOnline, setID_clientOnline]
          rfl
        · show (regUpdateDevices (exitClient (setID (genTemp w).2 sid (genTemp w).1 0) sid) u
            (alistRemove cl dv)).maxOnline = w.maxOnline
          rw [regUpdateDevices_maxOnline, exitClient_maxOnline, setID_maxOnline]
          rfl
      · intro hne
        exact absurd ⟨cl, rfl, by simp [hd]⟩ hne

theorem signInConflict_clientOnline (w : World) (u dv : Int) (logged : Devices) :
    (signInConflict w u dv logged).1.clientOnline = w.clientOnline := by
  unfold signInConflict
  cases h : alistGet logged dv with
  | none => rfl
  | some esid =>
    dsimp only
    rw [regUpdateDevices_clientOnline, exitClient_clientOnline,
      clientEnqueue_clientOnline, setID_clientOnline]
    rfl

theorem signInConflict_maxOnline (w : World) (u dv : Int) (logged : Devices) :
    (signInConflict w u dv logged).1.maxOnline = w.maxOnline := by
  unfold signInConflict
  cases h : alistGet logged dv with
  | none => rfl
  | some esid =>
    dsimp only
    rw [regUpdateDevices_maxOnline, exitClient_maxOnline,
      clientEnqueue_maxOnline, setID_maxOnline]
    rfl

theorem signInBind_clientOnline (w : World) (u dv : Int) (csid : Nat) :
    (signInBind w u dv csid).clientOnline = w.clientOnline := by
  unfold signInBind
  cases hg : clientsGet w u with
  | none => rfl
  | some logged =>
    dsimp only
    rw [regUpdateDevices_clientOnline]
    by_cases hsz : (signInConflict w u dv logged).2.length > 0
    · rw [if_pos hsz, pkgEnqueueMessage_clientOnline, signInConflict_clientOnline]
    · rw [if_neg hsz, signInConflict_clientOnline]

theorem signInBind_maxOnline (w : World) (u dv : Int) (csid : Nat) :
    (signInBind w u dv csid).maxOnline = w.maxOnline := by
  unfold signInBind
  cases hg : clientsGet w u with
  | none => rfl
  | some logged =>
    dsimp only
    rw [regUpdateDevices_maxOnline]
    by_cases hsz : (signInConflict w u dv logged).2.length > 0
    · rw [if_pos hsz, pkgEnqueueMessage_maxOnline, signInConflict_maxOnline]
    · rw [if_neg hsz, signInConflict_maxOnline]

theorem signInFinish_clientOnline (w5 : World) :
    (signInFinish w5).clientOnline = w5.clientOnline + 1 := by
  unfold signInFinish
  dsimp only
  by_cases hmax : w5.maxOnline < w5.clientOnline + 1
  · rw [if_pos hmax]
  · rw [if_neg hmax]

theorem signInFinish_maxOnline (w5 : World) :
    (signInFinish w5).maxOnline = max w5.maxOnline (w5.clientOnline + 1) := by
  unfold signInFinish
  dsimp only
  by_cases hmax : w5.maxOnline < w5.clientOnline + 1
  · rw [if_pos hmax]
    exact (max_eq_right hmax.le).symm
  · rw [if_neg hmax]
    exact (max_eq_left (not_lt.mp hmax)).symm

theorem signInFinish_clients (w5 : World) :
    (signInFinish w5).clients = w5.clients := by
  unfold signInFinish
  dsimp only
  by_cases hmax : w5.maxOnline < w5.clientOnline + 1
  · rw [if_pos hmax]
  · rw [if_neg hmax]

theorem signInFinish_store (w5 : World) :
    (signInFinish w5).store = w5.store := by
  unfold signInFinish
  dsimp only
  by_cases hmax : w5.maxOnline < w5.clientOnline + 1
  · rw [if_pos hmax]
  · rw [if_neg hmax]

theorem clientSignIn_counters (w : World) (id u dv : Int) (w' : World)
    (h : clientSignIn w id u dv = some w') :
    (clientsGet w id = none → w' = w) ∧
    (clientsGet w id ≠ none →
      w'.clientOnline = w.clientOnline + 1 ∧
      w'.maxOnline = max w.maxOnline (w.clientOnline + 1)) := by
  unfold clientSignIn at h
  cases hg : clientsGet w id with
  | none =>
    rw [hg] at h
    simp at h
    exact ⟨fun _ => h.symm, fun hne => absurd rfl hne⟩
  | some tempDs =>
    rw [hg] at h
    dsimp only at h
    have hnil : tempDs ≠ [] := clientsGet_ne_nil hg
    have hlen : ¬ tempDs.length = 0 := by simpa using hnil
    rw [if_neg hlen] at h
    cases hc : alistGet tempDs 0 with
    | none => rw [hc] at h; exact absurd h (by simp)
    | some csid =>
      rw [hc] at h
      simp only [Option.some.injEq] at h
      refine ⟨fun hno => absurd hno (by simp), fun _ => ?_⟩
      rw [← h]
      have e1 : (clientsDelete (setID (signInBind w u dv csid) csid u dv) id 0).clientOnline
          = w.clientOnline := by
        rw [clientsDelete_clientOnline, setID_clientOnline, signInBind_clientOnline]
      have e2 : (clientsDelete (setID (signInBind w u dv csid) csid u dv) id 0).maxOnline
          = w.maxOnline := by
        rw [clientsDelete_maxOnline, setID_maxOnline, signInBind_maxOnline]
      rw [signInFinish_clientOnline, signInFinish_maxOnline, e1, e2]
      exact ⟨rfl, rfl⟩

/-! ### Trace counting for the counter-pairing property -/

/-- A sign-in operation that finds its temporary entry in state `w` (the
branch of `ClientSignIn` that reaches the `clientOnline` increment). -/
def signInFound (w : World) : Op → Bool
  | Op.signIn id _ _ => (clientsGet w id).isSome
  | _ => false

/-- A direct registration. -/
def isAddClient : Op → Bool
  | Op.addClient _ => true
  | _ => false

/-- A sign-out operation that finds its `(uid, device)` slot in state `w`
(the branch of `ClientLogout` that reaches the `clientOnline` decrement). -/
def logoutFound (w : World) : Op → Bool
  | Op.logout u dv =>
    match clientsGet w u with
    | some cl => (alistGet cl dv).isSome
    | none => false
  | _ => false

/-- Number of sign-ins that found their temporary entry plus direct
registrations along a trace (junk after a panic, where no final state
exists). -/
def insCount (w : World) : List Op → Int
  | [] => 0
  | op :: ops =>
    (if signInFound w op || isAddClient op then 1 else 0) +
    (match step w op with
     | some w1 => insCount w1 ops
     | none => 0)

/-- Number of sign-outs that found their slot along a trace. -/
def outsCount (w : World) : List Op → Int
  | [] => 0
  | op :: ops =>
    (if logoutFound w op then 1 else 0) +
    (match step w op with
     | some w1 => outsCount w1 ops
     | none => 0)

/-- The maximum `clientOnline` value observed after any prefix of the trace
(including the empty prefix). -/
def prefixMaxOnline (w : World) : List Op → Int
  | [] => w.clientOnline
  | op :: ops =>
    match step w op with
    | some w1 => max w.clientOnline (prefixMaxOnline w1 ops)
    | none => w.clientOnline

/-- The `clientOnline` values observed immediately after each sign-in that
found its temporary entry (the only points where the code updates
`maxOnline`). -/
def postSignInOnlines (w : World) : List Op → List Int
  | [] => []
  | op :: ops =>
    match step w op with
    | some w1 =>
      (if signInFound w op then [w1.clientOnline] else []) ++ postSignInOnlines w1 ops
    | none => []

theorem insCount_cons (w : World) (op : Op) (ops : List Op) (w1 : World)
    (hs : step w op = some w1) :
    insCount w (op :: ops) =
      (if signInFound w op || isAddClient op then 1 else 0) + insCount w1 ops := by
  have he : insCount w (op :: ops) =
      (if signInFound w op || isAddClient op then 1 else 0) +
      (match step w op with
       | some w1 => insCount w1 ops
       | none => 0) := rfl
  rw [he, hs]

theorem outsCount_cons (w : World) (op : Op) (ops : List Op) (w1 : World)
    (hs : step w op = some w1) :
    outsCount w (op :: ops) =
      (if logoutFound w op then 1 else 0) + outsCount w1 ops := by
  have he : outsCount w (op :: ops) =
      (if logoutFound w op then 1 else 0) +
      (match step w op with
       | some w1 => outsCount w1 ops
       | none => 0) := rfl
  rw [he, hs]

theorem prefixMaxOnline_cons (w : World) (op : Op) (ops : List Op) (w1 : World)
    (hs : step w op = some w1) :
    prefixMaxOnline w (op :: ops) = max w.clientOnline (prefixMaxOnline w1 ops) := by
  have he : prefixMaxOnline w (op :: ops) =
      (match step w op with
       | some w1 => max w.clientOnline (prefixMaxOnline w1 ops)
       | none => w.clientOnline) := rfl
  rw [he, hs]

theorem postSignInOnlines_cons (w : World) (op : Op) (ops : List Op) (w1 : World)
    (hs : step w op = some w1) :
    postSignInOnlines w (op :: ops) =
      (if signInFound w op then [w1.clientOnline] else []) ++ postSignInOnlines w1 ops := by
  have he : postSignInOnlines w (op :: ops) =
      (match step w op with
       | some w1 =>
         (if signInFound w op then [w1.clientOnline] else []) ++ postSignInOnlines w1 ops
       | none => []) := rfl
  rw [he, hs]

/-- The effect of one non-panicking step on the two online counters, phrased
through the trace-counting predicates. -/
theorem step_online (w : World) (op : Op) (w1 : World) (hs : step w op = some w1) :
    w1.clientOnline = w.clientOnline
      + (if signInFound w op || isAddClient op then 1 else 0)
      - (if logoutFound w op then 1 else 0) ∧
    w1.maxOnline =
      (if signInFound w op then max w.maxOnline w1.clientOnline else w.maxOnline) := by
  cases op with
  | connect =>
    simp only [step, Option.some.injEq] at hs
    subst hs
    simp [signInFound, isAddClient, logoutFound,
      clientConnected_clientOnline, clientConnected_maxOnline]
  | addClient u =>
    simp only [step, Option.some.injEq] at hs
    subst hs
    simp [signInFound, isAddClient, logoutFound,
      addClient_clientOnline, addClient_maxOnline]
  | signIn id u2 dv =>
    have hc := clientSignIn_counters w id u2 dv w1 hs
    cases hg : clientsGet w id with
    | none =>
      have hw : w1 = w := hc.1 hg
      subst hw
      simp [signInFound, isAddClient, logoutFound, hg]
    | some tempDs =>
      have hon := hc.2 (by simp [hg])
      simp only [signInFound, isAddClient, logoutFound, hg]
      constructor
      · simpa using hon.1
      · simp only [Option.isSome_some, Bool.true_eq, if_pos]
        rw [hon.2, hon.1]
  | logout u dv =>
    simp only [step, Option.some.injEq] at hs
    subst hs
    have hc := clientLogout_counters w u dv
    cases hg : clientsGet w u with
    | none =>
      have hw := hc.2 (by rintro ⟨cl, hcl, -⟩; rw [hg] at hcl; exact absurd hcl (by simp))
      rw [hw]
      simp [signInFound, isAddClient, logoutFound, hg]
    | some cl =>
      cases hd : alistGet cl dv with
      | none =>
        have hw := hc.2 (by
          rintro ⟨cl', hcl', hsm⟩
          rw [hg] at hcl'
          cases hcl'
          rw [hd] at hsm
          simp at hsm)
        rw [hw]
        simp [signInFound, isAddClient, logoutFound, hg, hd]
      | some sid =>
        have hfound := hc.1 ⟨cl, hg, by simp [hd]⟩
        simp only [signInFound, isAddClient, logoutFound, hg, hd]
        constructor
        · simpa using hfound.1
        · simpa using hfound.2
  | enqueue u dv m =>
    simp only [step, Option.some.injEq] at hs
    subst hs
    have hf := enqueueMessage_frame w u dv m
    simp [signInFound, isAddClient, logoutFound, hf.2.1, hf.2.2.1]

/-- Counters along any non-panicking sequential trace: the final
`clientOnline` is the initial one plus found sign-ins and direct
registrations minus found sign-outs, and the final `maxOnline` folds `max`
over the online values observed right after each found sign-in. -/
theorem run_counters (ops : List Op) (w w' : World) (h : run w ops = some w') :
    w'.clientOnline = w.clientOnline + insCount w ops - outsCount w ops ∧
    w'.maxOnline = (postSignInOnlines w ops).foldl max w.maxOnline := by
  induction ops generalizing w with
  | nil =>
    have hw : w = w' := by simpa [run] using h
    subst hw
    simp [insCount, outsCount, postSignInOnlines]
  | cons op ops ih =>
    have hrun : run w (op :: ops) =
        (match step w op with
         | some w1 => run w1 ops
         | none => none) := rfl
    rw [hrun] at h
    cases hs : step w op with
    | none => rw [hs] at h; exact absurd h (by simp)
    | some w1 =>
      rw [hs] at h
      rcases ih w1 h with ⟨ihon, ihmax⟩
      rcases step_online w op w1 hs with ⟨son, smax⟩
      constructor
      · rw [insCount_cons w op ops w1 hs, outsCount_cons w op ops w1 hs, ihon, son]
        omega
      · rw [postSignInOnlines_cons w op ops w1 hs, List.foldl_append, ihmax]
        cases hf : signInFound w op with
        | true =>
          rw [hf] at smax
          simp [smax]
        | false =>
          rw [hf] at smax
          simp [smax]

/-! ### Helpers for the claim theorems -/

theorem clientsGet_bump (w : World) (u : Int) :
    clientsGet (bumpSent w) u = clientsGet w u := rfl

theorem clientsGet_some_alistGet {w : World} {u : Int} {ds : Devices}
    (h : clientsGet w u = some ds) : alistGet w.clients u = some ds := by
  unfold clientsGet at h
  cases hg : alistGet w.clients u with
  | none => rw [hg] at h; exact absurd h (by simp)
  | some cl =>
    rw [hg] at h
    dsimp only at h
    by_cases hl : cl.length ≠ 0
    · rw [if_pos hl] at h
      exact h
    · rw [if_neg hl] at h
      exact absurd h (by simp)

theorem clientEnqueue_err_ne (w : World) (sid : Nat) (m : Message) :
    (clientEnqueue w sid m).2 ≠ some Err.clientNotExist := by
  unfold clientEnqueue
  cases h : w.store.get? sid with
  | none => simp
  | some s =>
    dsimp only
    by_cases hc : s.closed = true
    · rw [if_pos hc]; simp
    · rw [if_neg hc]; simp

theorem foreachDeliver_err_ne (dv : Int) (m : Message) (l : List (Int × Nat))
    (acc : World × Option Err) (ha : acc.2 ≠ some Err.clientNotExist) :
    (foreachDeliver dv m acc l).2 ≠ some Err.clientNotExist := by
  induction l generalizing acc with
  | nil => exact ha
  | cons p t ih =>
    have hstep : foreachDeliver dv m acc (p :: t) =
        foreachDeliver dv m
          (if dv ≠ 0 ∧ p.1 ≠ dv then acc
           else if isClosed acc.1 p.2 then (acc.1, some Err.clientClosed)
           else clientEnqueue acc.1 p.2 m) t := rfl
    rw [hstep]
    by_cases h1 : dv ≠ 0 ∧ p.1 ≠ dv
    · rw [if_pos h1]; exact ih acc ha
    · rw [if_neg h1]
      by_cases h2 : isClosed acc.1 p.2 = true
      · rw [if_pos h2]; exact ih (acc.1, some Err.clientClosed) (by simp)
      · rw [if_neg h2]
        exact ih (clientEnqueue acc.1 p.2 m) (clientEnqueue_err_ne acc.1 p.2 m)

/-- Evaluates `ClientLogout` on a registered slot, written out. -/
theorem clientLogout_found (w : World) (u dv : Int) (cl : Devices) (sid : Nat)
    (h1 : clientsGet w u = some cl) (h2 : alistGet cl dv = some sid) :
    clientLogout w u dv =
      { regUpdateDevices (exitClient (setID (genTemp w).2 sid (genTemp w).1 0) sid) u
          (alistRemove cl dv) with
        clientOnline :=
          (regUpdateDevices (exitClient (setID (genTemp w).2 sid (genTemp w).1 0) sid) u
            (alistRemove cl dv)).clientOnline - 1 } := by
  unfold clientLogout
  rw [h1]
  dsimp only
  rw [if_neg (by simpa using clientsGet_ne_nil h1), h2]

theorem clientLogout_clients_found (w : World) (u dv : Int) (cl : Devices) (sid : Nat)
    (h1 : clientsGet w u = some cl) (h2 : alistGet cl dv = some sid) :
    (clientLogout w u dv).clients = alistPut w.clients u (alistRemove cl dv) := by
  rw [clientLogout_found w u dv cl sid h1 h2]
  show (regUpdateDevices (exitClient (setID (genTemp w).2 sid (genTemp w).1 0) sid) u
      (alistRemove cl dv)).clients = _
  show alistPut (exitClient (setID (genTemp w).2 sid (genTemp w).1 0) sid).clients u
      (alistRemove cl dv) = _
  rw [exitClient_clients, setID_clients]
  rfl

theorem clientsAdd_clients (w : World) (u d : Int) (sid : Nat) :
    (clientsAdd w u d sid).clients = clientsAddMap w.clients u d sid := rfl

theorem clientsDelete_clients (w : World) (u d : Int) :
    (clientsDelete w u d).clients = clientsDeleteMap w.clients u d := rfl

theorem clientsAddMap_get_ne (r : Registry) (u d : Int) (sid : Nat) (k : Int)
    (h : k ≠ u) : alistGet (clientsAddMap r u d sid) k = alistGet r k := by
  unfold clientsAddMap
  cases hg : alistGet r u with
  | none => exact alistGet_put_ne r u k [(d, sid)] h
  | some cs => exact alistGet_put_ne r u k (alistPut cs d sid) h

theorem clientsAddMap_get_self (r : Registry) (u d : Int) (sid : Nat) :
    ∃ cs, alistGet (clientsAddMap r u d sid) u = some cs ∧
      alistGet cs d = some sid ∧ cs ≠ [] := by
  unfold clientsAddMap
  cases hg : alistGet r u with
  | none =>
    exact ⟨[(d, sid)], alistGet_put_self r u [(d, sid)], by simp [alistGet], by simp⟩
  | some cs =>
    exact ⟨alistPut cs d sid, alistGet_put_self r u (alistPut cs d sid),
      alistGet_put_self cs d sid, alistPut_ne_nil cs d sid⟩

theorem signInConflict_clients_ne (w : World) (u dv : Int) (logged : Devices)
    (k : Int) (h : k ≠ u) :
    alistGet (signInConflict w u dv logged).1.clients k = alistGet w.clients k := by
  unfold signInConflict
  cases hx : alistGet logged dv with
  | none => rfl
  | some esid =>
    dsimp only
    show alistGet (alistPut
      (exitClient (clientEnqueue (setID (genTemp w).2 esid (genTemp w).1 0) esid
        kickOutMsg).1 esid).clients u (alistRemove logged dv)) k = _
    rw [alistGet_put_ne _ _ _ _ h, exitClient_clients, clientEnqueue_clients, setID_clients]
    rfl

theorem signInBind_clients_ne (w : World) (u dv : Int) (csid : Nat) (k : Int)
    (h : k ≠ u) :
    alistGet (signInBind w u dv csid).clients k = alistGet w.clients k := by
  unfold signInBind
  cases hg : clientsGet w u with
  | none => exact clientsAddMap_get_ne w.clients u dv csid k h
  | some logged =>
    dsimp only
    show alistGet (alistPut _ u (alistPut (signInConflict w u dv logged).2 dv csid)) k = _
    rw [alistGet_put_ne _ _ _ _ h]
    by_cases hsz : (signInConflict w u dv logged).2.length > 0
    · rw [if_pos hsz, pkgEnqueueMessage_clients, signInConflict_clients_ne w u dv logged k h]
    · rw [if_neg hsz, signInConflict_clients_ne w u dv logged k h]

theorem clientLogout_store_found (w : World) (u dv : Int) (cl : Devices) (sid : Nat)
    (h1 : clientsGet w u = some cl) (h2 : alistGet cl dv = some sid) :
    (clientLogout w u dv).store =
      (exitClient (setID (genTemp w).2 sid (genTemp w).1 0) sid).store := by
  rw [clientLogout_found w u dv cl sid h1 h2]
  rfl

/-- Shows `ClientConnected` always leaves the returned temporary id resolvable,
with the freshly allocated session at device 0. -/
theorem clientConnected_registered (w : World) :
    ∃ cl, clientsGet (clientConnected w).1 (clientConnected w).2 = some cl ∧
      alistGet cl 0 = some w.store.length := by
  obtain ⟨cs, h1, h2, h3⟩ := clientsAddMap_get_self w.clients w.nextTemp 0 w.store.length
  refine ⟨cs, ?_, h2⟩
  unfold clientsGet
  show (match alistGet (clientsAddMap w.clients w.nextTemp 0 w.store.length) w.nextTemp with
    | some cl => if cl.length ≠ 0 then some cl else none
    | none => none) = some cs
  rw [h1]
  dsimp only
  rw [if_pos (by simpa using h3)]

/-! ### Claim theorems -/

/-- C4: `EnqueueMessage` returns `ClientNotExist` and delivers to no Session
(the state changes only by the `messageSent` bump) both when the user has no
registered devices and when a specific non-zero device is requested but not
registered. -/
theorem c4_enqueueNotExist (w : World) (u dv : Int) (m : Message) :
    (clientsGet w u = none →
      enqueueMessage w u dv m = (bumpSent w, some Err.clientNotExist)) ∧
    (∀ ds, clientsGet w u = some ds → dv ≠ 0 → alistGet ds dv = none →
      enqueueMessage w u dv m = (bumpSent w, some Err.clientNotExist)) := by
  constructor
  · intro h
    unfold enqueueMessage
    rw [clientsGet_bump, h]
  · intro ds h hdv hget
    unfold enqueueMessage
    rw [clientsGet_bump, h]
    dsimp only
    rw [if_neg (by simpa using clientsGet_ne_nil h), if_pos hdv, hget]

theorem c4_enqueueNotExist_witness :
    (clientsGet freshWorld 9 = none ∧
      enqueueMessage freshWorld 9 0 kickOutMsg = (bumpSent freshWorld, some Err.clientNotExist)) ∧
    (clientsGet oneUserWorld 5 = some [(1, 0)] ∧ (2 : Int) ≠ 0 ∧
      alistGet [((1 : Int), (0 : Nat))] 2 = none ∧
      enqueueMessage oneUserWorld 5 2 kickOutMsg =
        (bumpSent oneUserWorld, some Err.clientNotExist)) :=
  ⟨⟨by decide, (c4_enqueueNotExist freshWorld 9 0 kickOutMsg).1 (by decide)⟩,
   ⟨by decide, by decide, by decide,
    (c4_enqueueNotExist oneUserWorld 5 2 kickOutMsg).2 [(1, 0)] (by decide)
      (by decide) (by decide)⟩⟩

/-- C5: a sign-in whose temporary id does not resolve returns Go's `nil`
error (in the embedding: a defined, non-panicking result) and leaves the
whole state — registry, counters, store, id source — unchanged. -/
theorem c5_signInUnknownTempNoop (w : World) (id u dv : Int)
    (h : clientsGet w id = none) :
    clientSignIn w id u dv = some w := by
  unfold clientSignIn
  rw [h]

theorem c5_signInUnknownTempNoop_witness :
    clientsGet freshWorld 42 = none ∧ clientSignIn freshWorld 42 7 1 = some freshWorld :=
  ⟨by decide, c5_signInUnknownTempNoop freshWorld 42 7 1 (by decide)⟩

/-- C6: sign-out of a registered slot decrements `clientOnline` exactly once,
and a second sign-out of the same slot is a no-op (Go returns a `nil` error
on both calls; the embedding's `clientLogout` is total, mirroring that no
error path exists). -/
theorem c6_logoutIdempotent (w : World) (u dv : Int) (cl : Devices) (sid : Nat)
    (h1 : clientsGet w u = some cl) (h2 : alistGet cl dv = some sid) :
    (clientLogout w u dv).clientOnline = w.clientOnline - 1 ∧
    clientLogout (clientLogout w u dv) u dv = clientLogout w u dv := by
  constructor
  · exact ((clientLogout_counters w u dv).1 ⟨cl, h1, by simp [h2]⟩).1
  · have hcl : (clientLogout w u dv).clients = alistPut w.clients u (alistRemove cl dv) :=
      clientLogout_clients_found w u dv cl sid h1 h2
    by_cases hz : (alistRemove cl dv).length = 0
    · have hnone : clientsGet (clientLogout w u dv) u = none := by
        unfold clientsGet
        rw [hcl, alistGet_put_self]
        simp [hz]
      generalize hW : clientLogout w u dv = W at hnone ⊢
      unfold clientLogout
      rw [hnone]
    · have hsome : clientsGet (clientLogout w u dv) u = some (alistRemove cl dv) := by
        unfold clientsGet
        rw [hcl, alistGet_put_self]
        simp [hz]
      generalize hW : clientLogout w u dv = W at hsome ⊢
      unfold clientLogout
      rw [hsome]
      dsimp only
      rw [if_neg hz, alistGet_remove_self]

/-- C6 witness: sign user 5 in at device 1, then sign out twice. -/
theorem c6_logoutIdempotent_witness :
    clientsGet oneUserWorld 5 = some [(1, 0)] ∧
    alistGet [((1 : Int), (0 : Nat))] 1 = some 0 ∧
    (clientLogout oneUserWorld 5 1).clientOnline = oneUserWorld.clientOnline - 1 ∧
    clientLogout (clientLogout oneUserWorld 5 1) 5 1 = clientLogout oneUserWorld 5 1 :=
  ⟨by decide, by decide,
   (c6_logoutIdempotent oneUserWorld 5 1 [(1, 0)] 0 (by decide) (by decide)).1,
   (c6_logoutIdempotent oneUserWorld 5 1 [(1, 0)] 0 (by decide) (by decide)).2⟩

/-- C9: every `EnqueueMessage` call increments `messageSent` by exactly one
whatever its outcome, and on the `ClientNotExist` paths nothing else changes
(the result state is exactly the input with the counter bumped, so the
registry, `clientOnline` and `maxOnline` are untouched). -/
theorem c9_messageSentEveryCall (w : World) (u dv : Int) (m : Message) :
    (enqueueMessage w u dv m).1.messageSent = w.messageSent + 1 ∧
    ((enqueueMessage w u dv m).2 = some Err.clientNotExist →
      (enqueueMessage w u dv m).1 = bumpSent w) := by
  refine ⟨(enqueueMessage_frame w u dv m).2.2.2, ?_⟩
  intro herr
  unfold enqueueMessage at herr ⊢
  cases hg : clientsGet (bumpSent w) u with
  | none => rfl
  | some ds =>
    rw [hg] at herr
    dsimp only at herr ⊢
    by_cases hl : ds.length = 0
    · rw [if_pos hl]
    · rw [if_neg hl] at herr ⊢
      by_cases hdv : dv ≠ 0
      · rw [if_pos hdv] at herr ⊢
        cases hget : alistGet ds dv with
        | none => rfl
        | some sid =>
          rw [hget] at herr
          exact absurd herr (clientEnqueue_err_ne (bumpSent w) sid m)
      · rw [if_neg hdv] at herr ⊢
        exact absurd herr
          (foreachDeliver_err_ne dv m ds (bumpSent w, none) (by simp))

theorem c9_messageSentEveryCall_witness :
    (enqueueMessage freshWorld 7 0 kickOutMsg).1.messageSent = freshWorld.messageSent + 1 ∧
    (enqueueMessage freshWorld 7 0 kickOutMsg).1 = bumpSent freshWorld :=
  ⟨(c9_messageSentEveryCall freshWorld 7 0 kickOutMsg).1,
   (c9_messageSentEveryCall freshWorld 7 0 kickOutMsg).2 (by decide)⟩

/-- C7: after a completed sign-in of a registered temporary entry (a
single-slot entry at device 0, as `ClientConnected` always creates, with a
temporary id distinct from the user id being bound), the temporary id no
longer resolves in the registry. -/
theorem c7_tempCleanup (w : World) (id u dv : Int) (csid : Nat)
    (hg : clientsGet w id = some [(0, csid)]) (hne : id ≠ u) :
    (clientSignIn w id u dv).map (fun v => clientsGet v id) = some none := by
  have hstep : clientSignIn w id u dv =
      some (signInFinish (clientsDelete (setID (signInBind w u dv csid) csid u dv) id 0)) := by
    unfold clientSignIn
    rw [hg]
    dsimp only
    rw [if_neg (by simp)]
    rfl
  rw [hstep]
  refine congrArg some ?_
  have hR : alistGet (setID (signInBind w u dv csid) csid u dv).clients id
      = some [(0, csid)] := by
    rw [setID_clients, signInBind_clients_ne w u dv csid id hne]
    exact clientsGet_some_alistGet hg
  have hdel : clientsDeleteMap (setID (signInBind w u dv csid) csid u dv).clients id 0
      = alistRemove (setID (signInBind w u dv csid) csid u dv).clients id := by
    unfold clientsDeleteMap
    rw [hR]
    dsimp only
    rw [if_pos (by simp [alistRemove])]
  unfold clientsGet
  dsimp only
  rw [signInFinish_clients, clientsDelete_clients, hdel, alistGet_remove_self]

theorem c7_tempCleanup_witness :
    clientsGet pendingSecondWorld 1000001 = some [(0, 1)] ∧ (1000001 : Int) ≠ 6 ∧
    (clientSignIn pendingSecondWorld 1000001 6 2).map
      (fun v => clientsGet v 1000001) = some none :=
  ⟨by decide, by decide,
   c7_tempCleanup pendingSecondWorld 1000001 6 2 1 (by decide) (by decide)⟩

/-- C10: `ClientLogout` does not distinguish temporary from permanent
identifiers.  For any state, connecting and then logging the returned
temporary id out finds the slot, removes it, marks the session's
termination requested, and decrements `clientOnline` — which `ClientConnected`
never incremented.  From a fresh manager the two-operation trace therefore
leaves `clientOnline` negative. -/
theorem c10_logoutOfTempGoesNegative :
    (∀ w : World,
      (clientLogout (clientConnected w).1 (clientConnected w).2 0).clientOnline
          = w.clientOnline - 1 ∧
      ((clientLogout (clientConnected w).1 (clientConnected w).2 0).store.get?
          w.store.length).map ClientState.exited = some true ∧
      (∀ ds, clientsGet (clientLogout (clientConnected w).1 (clientConnected w).2 0)
          (clientConnected w).2 = some ds → alistGet ds 0 = none)) ∧
    ((run freshWorld [Op.connect, Op.logout 1000000 0]).map World.clientOnline
        = some (-1) ∧ (-1 : Int) < 0) := by
  constructor
  · intro w
    obtain ⟨cl, hcl, hdev⟩ := clientConnected_registered w
    refine ⟨?_, ?_, ?_⟩
    · have := ((clientLogout_counters (clientConnected w).1 (clientConnected w).2 0).1
        ⟨cl, hcl, by simp [hdev]⟩).1
      rw [this, clientConnected_clientOnline]
    · rw [clientLogout_store_found (clientConnected w).1 (clientConnected w).2 0 cl
        w.store.length hcl hdev]
      have hlt : w.store.length < (genTemp (clientConnected w).1).2.store.length := by
        show w.store.length < (w.store ++ [initSession w.nextTemp]).length
        simp
      have hget1 : (genTemp (clientConnected w).1).2.store.get? w.store.length =
          some (initSession w.nextTemp) := by
        show (w.store ++ [initSession w.nextTemp]).get? w.store.length = _
        exact List.get?_concat_length _ _
      unfold setID
      rw [hget1]
      dsimp only
      unfold exitClient
      rw [List.get?_set_eq_of_lt _ (by simpa using hlt)]
      dsimp only
      rw [List.get?_set_eq_of_lt _ (by simpa using hlt)]
      rfl
    · intro ds hds
      have hcl2 : (clientLogout (clientConnected w).1 (clientConnected w).2 0).clients
          = alistPut (clientConnected w).1.clients (clientConnected w).2
              (alistRemove cl 0) :=
        clientLogout_clients_found (clientConnected w).1 (clientConnected w).2 0 cl
          w.store.length hcl hdev
      unfold clientsGet at hds
      rw [hcl2, alistGet_put_self] at hds
      dsimp only at hds
      by_cases hz : (alistRemove cl 0).length ≠ 0
      · rw [if_pos hz] at hds
        cases hds
        exact alistGet_remove_self cl 0
      · rw [if_neg hz] at hds
        exact absurd hds (by simp)
  · exact ⟨by decide, by decide⟩

/-! ### C8: the no-empty-DeviceSet invariant -/

theorem regUpdateDevices_clients (w : World) (u : Int) (ds : Devices) :
    (regUpdateDevices w u ds).clients = alistPut w.clients u ds := rfl

theorem noEmpty_alistPut (r : Registry) (u : Int) (ds : Devices) (hds : ds ≠ [])
    (h : ∀ p ∈ r, p.2 ≠ ([] : Devices)) :
    ∀ p ∈ alistPut r u ds, p.2 ≠ ([] : Devices) := by
  intro p hp
  rcases mem_alistPut r u ds p hp with hmem | he
  · exact h p hmem
  · rw [he]
    exact hds

theorem noEmpty_alistRemove (r : Registry) (u : Int)
    (h : ∀ p ∈ r, p.2 ≠ ([] : Devices)) :
    ∀ p ∈ alistRemove r u, p.2 ≠ ([] : Devices) :=
  fun p hp => h p (mem_alistRemove r u p hp)

theorem noEmpty_addMap (r : Registry) (u d : Int) (sid : Nat)
    (h : ∀ p ∈ r, p.2 ≠ ([] : Devices)) :
    ∀ p ∈ clientsAddMap r u d sid, p.2 ≠ ([] : Devices) := by
  unfold clientsAddMap
  cases hg : alistGet r u with
  | none => exact noEmpty_alistPut r u [(d, sid)] (by simp) h
  | some cs => exact noEmpty_alistPut r u (alistPut cs d sid) (alistPut_ne_nil cs d sid) h

theorem noEmpty_deleteMap (r : Registry) (u d : Int)
    (h : ∀ p ∈ r, p.2 ≠ ([] : Devices)) :
    ∀ p ∈ clientsDeleteMap r u d, p.2 ≠ ([] : Devices) := by
  unfold clientsDeleteMap
  cases hg : alistGet r u with
  | none => exact h
  | some cs =>
    dsimp only
    by_cases hz : (alistRemove cs d).length = 0
    · rw [if_pos hz]
      exact noEmpty_alistRemove r u h
    · rw [if_neg hz]
      exact noEmpty_alistPut r u (alistRemove cs d) (by simpa using hz) h

/-- Overwriting the user's entry right after the conflict mutex collapses the
intermediate (possibly emptied) entry. -/
theorem signInConflict_collapse (w : World) (u dv : Int) (logged : Devices)
    (ds2 : Devices) :
    alistPut (signInConflict w u dv logged).1.clients u ds2 =
      alistPut w.clients u ds2 := by
  unfold signInConflict
  cases he : alistGet logged dv with
  | none => rfl
  | some esid =>
    dsimp only
    rw [regUpdateDevices_clients, alistPut_put_same, exitClient_clients,
      clientEnqueue_clients, setID_clients]
    rfl

theorem signInBind_clients_noEmpty (w : World) (u dv : Int) (csid : Nat)
    (h : ∀ p ∈ w.clients, p.2 ≠ ([] : Devices)) :
    ∀ p ∈ (signInBind w u dv csid).clients, p.2 ≠ ([] : Devices) := by
  unfold signInBind
  cases hg : clientsGet w u with
  | none => exact noEmpty_addMap w.clients u dv csid h
  | some logged =>
    dsimp only
    rw [regUpdateDevices_clients]
    have hX : (if (signInConflict w u dv logged).2.length > 0
        then pkgEnqueueMessage (signInConflict w u dv logged).1 u (accountLoginMsg dv)
        else (signInConflict w u dv logged).1).clients =
        (signInConflict w u dv logged).1.clients := by
      by_cases hsz : (signInConflict w u dv logged).2.length > 0
      · rw [if_pos hsz, pkgEnqueueMessage_clients]
      · rw [if_neg hsz]
    rw [hX, signInConflict_collapse]
    exact noEmpty_alistPut w.clients u _ (alistPut_ne_nil _ _ _) h

/-- C8 counterexample: from a fresh manager, connect, sign user 5 in at
device 1, then sign out again.  `ClientLogout` removes the last device with
`devices.remove`, not `clients.delete`, so the emptied DeviceSet entry for
user 5 stays in the registry, falsifying the claim that every operation
preserves the invariant and that removing the last device removes the user
entry. -/
theorem c8_counterexample :
    run freshWorld logoutLastDeviceTrace = some logoutLastDeviceWorld ∧
    logoutLastDeviceWorld.clients = [(5, [])] ∧
    ¬ NoEmptyDS logoutLastDeviceWorld := by
  refine ⟨by decide, by decide, ?_⟩
  intro h
  exact h (5, []) (by decide) rfl

/-- C8 amended: the invariant "no userId entry maps to an empty DeviceSet"
is preserved at operation boundaries by `ClientConnected`, `AddClient`,
`ClientSignIn` (including its transient in-place mutations) and
`EnqueueMessage`; `ClientLogout` is the exception exhibited by the
counterexample. -/
theorem c8_noEmptyPreserved (w : World) (u2 id u dv u3 dv3 : Int)
    (m : Message) (w' : World) (h : NoEmptyDS w) :
    NoEmptyDS (clientConnected w).1 ∧
    NoEmptyDS (addClient w u2) ∧
    (clientSignIn w id u dv = some w' → NoEmptyDS w') ∧
    NoEmptyDS (enqueueMessage w u3 dv3 m).1 := by
  refine ⟨?_, ?_, ?_, ?_⟩
  · exact noEmpty_addMap w.clients w.nextTemp 0 w.store.length h
  · exact noEmpty_addMap w.clients u2 0 w.store.length h
  · intro hs
    unfold clientSignIn at hs
    cases hg : clientsGet w id with
    | none =>
      rw [hg] at hs
      simp only [Option.some.injEq] at hs
      rw [← hs]
      exact h
    | some tempDs =>
      rw [hg] at hs
      dsimp only at hs
      rw [if_neg (by simpa using clientsGet_ne_nil hg)] at hs
      cases hc : alistGet tempDs 0 with
      | none => rw [hc] at hs; exact absurd hs (by simp)
      | some csid =>
        rw [hc] at hs
        simp only [Option.some.injEq] at hs
        rw [← hs]
        show ∀ p ∈ (signInFinish (clientsDelete (setID (signInBind w u dv csid)
          csid u dv) id 0)).clients, p.2 ≠ ([] : Devices)
        rw [signInFinish_clients, clientsDelete_clients, setID_clients]
        exact noEmpty_deleteMap _ id 0 (signInBind_clients_noEmpty w u dv csid h)
  · show ∀ p ∈ (enqueueMessage w u3 dv3 m).1.clients, p.2 ≠ ([] : Devices)
    rw [(enqueueMessage_frame w u3 dv3 m).1]
    exact h

theorem c8_noEmptyPreserved_witness :
    NoEmptyDS (clientConnected oneUserWorld).1 ∧
    NoEmptyDS (addClient oneUserWorld 3) ∧
    NoEmptyDS oneUserWorld ∧
    NoEmptyDS (enqueueMessage oneUserWorld 7 0 kickOutMsg).1 := by
  have ha := c8_noEmptyPreserved oneUserWorld 3 1 2 3 7 0 kickOutMsg oneUserWorld
    (by unfold NoEmptyDS; decide)
  exact ⟨ha.1, ha.2.1, ha.2.2.1 (by decide), ha.2.2.2⟩

/-! ### C2: broadcast delivery with a closed device -/

theorem clientEnqueue_isClosed (w : World) (sid : Nat) (m : Message) (k : Nat) :
    isClosed (clientEnqueue w sid m).1 k = isClosed w k := by
  unfold clientEnqueue isClosed
  cases h : w.store.get? sid with
  | none => rfl
  | some s =>
    dsimp only
    by_cases hc : s.closed = true
    · rw [if_pos hc]
    · rw [if_neg hc]
      dsimp only
      by_cases hk : k = sid
      · subst hk
        rw [List.get?_set_eq_of_lt _ (List.get?_eq_some.mp h).1, h]
      · rw [List.get?_set_ne _ _ (fun he => hk he.symm)]

theorem clientEnqueue_err_open (w : World) (sid : Nat) (m : Message)
    (h : isClosed w sid = false) : (clientEnqueue w sid m).2 = none := by
  unfold clientEnqueue
  unfold isClosed at h
  cases hg : w.store.get? sid with
  | none => rfl
  | some s =>
    rw [hg] at h
    dsimp only at h ⊢
    rw [if_neg (by simp [h])]

theorem clientEnqueue_get_self (w : World) (sid : Nat) (m : Message)
    (h : isClosed w sid = false) :
    (clientEnqueue w sid m).1.store.get? sid =
      (w.store.get? sid).map (fun s => { s with queue := s.queue ++ [m] }) := by
  unfold clientEnqueue
  unfold isClosed at h
  cases hg : w.store.get? sid with
  | none =>
    dsimp only
    exact hg
  | some s =>
    rw [hg] at h
    dsimp only at h ⊢
    rw [if_neg (by simp [h])]
    dsimp only
    rw [List.get?_set_eq_of_lt _ (List.get?_eq_some.mp hg).1]
    rfl

theorem clientEnqueue_get_ne (w : World) (sid : Nat) (m : Message) (k : Nat)
    (h : k ≠ sid) :
    (clientEnqueue w sid m).1.store.get? k = w.store.get? k := by
  unfold clientEnqueue
  cases hg : w.store.get? sid with
  | none => rfl
  | some s =>
    dsimp only
    by_cases hc : s.closed = true
    · rw [if_pos hc]
    · rw [if_neg hc]
      dsimp only
      rw [List.get?_set_ne _ _ (fun he => h he.symm)]

/-- The broadcast loop of `EnqueueMessage` (`device = 0`), over a device list
with no aliased sessions: closed devices' sessions are untouched, open
devices' sessions each receive the message once, sessions outside the list
are untouched, and the final `err` value is decided by the last device
iterated (a closed device seen earlier is overwritten by a later open
device's `nil`). -/
theorem foreachDeliver_broadcast (m : Message) (l : List (Int × Nat)) (w : World)
    (e0 : Option Err) (hnd : (l.map Prod.snd).Nodup) :
    (∀ sid, sid ∉ l.map Prod.snd →
      (foreachDeliver 0 m (w, e0) l).1.store.get? sid = w.store.get? sid) ∧
    (∀ p ∈ l, isClosed w p.2 = true →
      (foreachDeliver 0 m (w, e0) l).1.store.get? p.2 = w.store.get? p.2) ∧
    (∀ p ∈ l, isClosed w p.2 = false →
      (foreachDeliver 0 m (w, e0) l).1.store.get? p.2 =
        (w.store.get? p.2).map (fun s => { s with queue := s.queue ++ [m] })) ∧
    ((foreachDeliver 0 m (w, e0) l).2 =
      match l.getLast? with
      | none => e0
      | some q => if isClosed w q.2 then some Err.clientClosed else none) := by
  induction l generalizing w e0 with
  | nil => exact ⟨fun sid _ => rfl, by simp, by simp, rfl⟩
  | cons p t ih =>
    have hstep : foreachDeliver 0 m (w, e0) (p :: t) =
        foreachDeliver 0 m
          (if (0 : Int) ≠ 0 ∧ p.1 ≠ 0 then (w, e0)
           else if isClosed w p.2 then (w, some Err.clientClosed)
           else clientEnqueue w p.2 m) t := rfl
    have hnd2 : (t.map Prod.snd).Nodup := (List.nodup_cons.mp (by simpa using hnd)).2
    have hpn : p.2 ∉ t.map Prod.snd := (List.nodup_cons.mp (by simpa using hnd)).1
    rw [hstep, if_neg (by simp)]
    by_cases hcl : isClosed w p.2 = true
    · rw [if_pos hcl]
      rcases ih w (some Err.clientClosed) hnd2 with ⟨ih1, ih2, ih3, ih4⟩
      refine ⟨?_, ?_, ?_, ?_⟩
      · intro sid hsid
        rw [List.map_cons, List.mem_cons] at hsid
        push_neg at hsid
        exact ih1 sid hsid.2
      · intro q hq hqc
        rcases List.mem_cons.mp hq with he | hmem
        · subst he
          exact ih1 q.2 hpn
        · exact ih2 q hmem hqc
      · intro q hq hqc
        rcases List.mem_cons.mp hq with he | hmem
        · subst he
          rw [hcl] at hqc
          exact absurd hqc (by simp)
        · exact ih3 q hmem hqc
      · cases t with
        | nil =>
          show (w, some Err.clientClosed).2 = _
          simp [List.getLast?, hcl]
        | cons q0 t1 =>
          rw [List.getLast?_cons_cons]
          exact ih4
    · rw [if_neg hcl]
      have hclf : isClosed w p.2 = false := by simpa using hcl
      have he1 : (clientEnqueue w p.2 m).2 = none := clientEnqueue_err_open w p.2 m hclf
      have hpair : clientEnqueue w p.2 m = ((clientEnqueue w p.2 m).1, (none : Option Err)) := by
        rw [← he1]
      rw [hpair]
      rcases ih (clientEnqueue w p.2 m).1 none hnd2 with ⟨ih1, ih2, ih3, ih4⟩
      refine ⟨?_, ?_, ?_, ?_⟩
      · intro sid hsid
        rw [List.map_cons, List.mem_cons] at hsid
        push_neg at hsid
        rw [ih1 sid hsid.2, clientEnqueue_get_ne w p.2 m sid hsid.1]
      · intro q hq hqc
        rcases List.mem_cons.mp hq with he | hmem
        · subst he
          rw [hclf] at hqc
          exact absurd hqc (by simp)
        · have hq2 : q.2 ≠ p.2 := by
            intro hcontra
            exact hpn (hcontra ▸ List.mem_map_of_mem Prod.snd hmem)
          rw [ih2 q hmem (by rw [clientEnqueue_isClosed]; exact hqc),
            clientEnqueue_get_ne w p.2 m q.2 hq2]
      · intro q hq hqc
        rcases List.mem_cons.mp hq with he | hmem
        · subst he
          rw [ih1 q.2 hpn, clientEnqueue_get_self w q.2 m hqc]
        · have hq2 : q.2 ≠ p.2 := by
            intro hcontra
            exact hpn (hcontra ▸ List.mem_map_of_mem Prod.snd hmem)
          rw [ih3 q hmem (by rw [clientEnqueue_isClosed]; exact hqc),
            clientEnqueue_get_ne w p.2 m q.2 hq2]
      · cases t with
        | nil =>
          show (foreachDeliver 0 m ((clientEnqueue w p.2 m).1, none) []).2 = _
          simp [foreachDeliver, List.getLast?, hclf]
        | cons q0 t1 =>
          rw [List.getLast?_cons_cons, ih4]
          cases hql : (q0 :: t1).getLast? with
          | none => simp at hql
          | some q =>
            dsimp only
            rw [clientEnqueue_isClosed]

/-- C2 counterexample: user 7's devices are iterated closed-first
(device 1's session, store index 0, is closed; device 2's, store index 1, is
open).  The broadcast encounters the closed device, yet the call does not
return `ClientClosed`: the later open device overwrites `err` with `nil`. -/
theorem c2_counterexample :
    clientsGet closedFirstWorld 7 = some [(1, 0), (2, 1)] ∧
    isClosed closedFirstWorld 0 = true ∧
    (enqueueMessage closedFirstWorld 7 0 kickOutMsg).2 = none ∧
    (enqueueMessage closedFirstWorld 7 0 kickOutMsg).2 ≠ some Err.clientClosed := by
  refine ⟨by decide, by decide, by decide, by decide⟩

/-- C2 amended: when a broadcast (`device = 0`) meets a registered device
whose Session reports closed, that device is not delivered to, every open
device of the user is delivered to exactly once and those deliveries are not
rolled back, and the returned error is that of the last device iterated —
`ClientClosed` exactly when that device is closed (guaranteed only when the
closed device is iterated last, e.g. when it is the user's only device). -/
theorem c2_broadcastClosed (w : World) (u : Int) (m : Message) (ds : Devices)
    (hg : clientsGet w u = some ds) (hnd : (ds.map Prod.snd).Nodup)
    (hex : ∃ p ∈ ds, isClosed w p.2 = true) :
    (∀ p ∈ ds, isClosed w p.2 = true →
      (enqueueMessage w u 0 m).1.store.get? p.2 = w.store.get? p.2) ∧
    (∀ p ∈ ds, isClosed w p.2 = false →
      (enqueueMessage w u 0 m).1.store.get? p.2 =
        (w.store.get? p.2).map (fun s => { s with queue := s.queue ++ [m] })) ∧
    (∀ q, ds.getLast? = some q →
      (enqueueMessage w u 0 m).2 =
        (if isClosed w q.2 then some Err.clientClosed else none)) := by
  have hun : enqueueMessage w u 0 m = foreachDeliver 0 m (bumpSent w, none) ds := by
    unfold enqueueMessage
    rw [clientsGet_bump, hg]
    dsimp only
    rw [if_neg (by simpa using clientsGet_ne_nil hg), if_neg (by simp)]
  rcases foreachDeliver_broadcast m ds (bumpSent w) none hnd with ⟨h1, h2, h3, h4⟩
  refine ⟨?_, ?_, ?_⟩
  · intro p hp hc
    rw [hun]
    exact h2 p hp hc
  · intro p hp hc
    rw [hun]
    exact h3 p hp hc
  · intro q hq
    rw [hun, h4, hq]
    rfl

theorem c2_broadcastClosed_witness :
    clientsGet closedLastWorld 7 = some [(1, 0), (2, 1)] ∧
    isClosed closedLastWorld 1 = true ∧
    (enqueueMessage closedLastWorld 7 0 kickOutMsg).2 = some Err.clientClosed ∧
    (enqueueMessage closedLastWorld 7 0 kickOutMsg).1.store.get? 1 =
      closedLastWorld.store.get? 1 ∧
    (enqueueMessage closedLastWorld 7 0 kickOutMsg).1.store.get? 0 =
      (closedLastWorld.store.get? 0).map
        (fun s => { s with queue := s.queue ++ [kickOutMsg] }) := by
  have h := c2_broadcastClosed closedLastWorld 7 kickOutMsg [(1, 0), (2, 1)]
    (by decide) (by decide) ⟨(2, 1), by decide, by decide⟩
  refine ⟨by decide, by decide, ?_, ?_, ?_⟩
  · rw [h.2.2 (2, 1) (by decide)]
    decide
  · exact h.1 (2, 1) (by decide) (by decide)
  · exact h.2.1 (1, 0) (by decide) (by decide)

/-- C3 counterexample: a one-operation trace consisting of a single
`AddClient` direct registration.  The final `clientOnline` obeys the pairing
formula (1 = 1 + 0 - 0), but `maxOnline` stays 0 while the maximum online
value observed over the trace's prefixes is 1: `AddClient` increments
`clientOnline` without the read-compare-write `maxOnline` update, which only
`ClientSignIn` performs. -/
theorem c3_counterexample :
    run freshWorld [Op.addClient 5] = some (addClient freshWorld 5) ∧
    (addClient freshWorld 5).clientOnline = 1 ∧
    prefixMaxOnline freshWorld [Op.addClient 5] = 1 ∧
    (addClient freshWorld 5).maxOnline = 0 ∧
    (addClient freshWorld 5).maxOnline ≠ prefixMaxOnline freshWorld [Op.addClient 5] :=
  ⟨by decide, by decide, by decide, by decide, by decide⟩

/-- C3 amended: over any non-panicking sequential trace from a fresh
manager, the final `clientOnline` equals (sign-ins that found their
temporary entry) + (`AddClient` registrations) − (sign-outs that found their
slot); and `maxOnline` equals the maximum of 0 and the `clientOnline`
values observed immediately after each found sign-in (not over all
prefixes: `AddClient` never updates `maxOnline`). -/
theorem c3_counterPairing (ops : List Op) (w' : World)
    (h : run freshWorld ops = some w') :
    w'.clientOnline = insCount freshWorld ops - outsCount freshWorld ops ∧
    w'.maxOnline = (postSignInOnlines freshWorld ops).foldl max 0 := by
  rcases run_counters ops freshWorld w' h with ⟨h1, h2⟩
  have hz : freshWorld.clientOnline = 0 := rfl
  have hm : freshWorld.maxOnline = 0 := rfl
  rw [hz] at h1
  rw [hm] at h2
  exact ⟨by omega, h2⟩

theorem c3_counterPairing_witness :
    run freshWorld pairingTrace = some pairingWorld ∧
    pairingWorld.clientOnline =
      insCount freshWorld pairingTrace - outsCount freshWorld pairingTrace ∧
    pairingWorld.maxOnline =
      (postSignInOnlines freshWorld pairingTrace).foldl max 0 := by
  have hr : run freshWorld pairingTrace = some pairingWorld := by decide
  exact ⟨hr, c3_counterPairing pairingTrace pairingWorld hr⟩

/-! ### C1: the multi-device login mutex -/

theorem clientsDeleteMap_get_ne (r : Registry) (u d : Int) (k : Int)
    (h : k ≠ u) : alistGet (clientsDeleteMap r u d) k = alistGet r k := by
  unfold clientsDeleteMap
  cases hg : alistGet r u with
  | none => rfl
  | some cs =>
    dsimp only
    by_cases hz : (alistRemove cs d).length = 0
    · rw [if_pos hz]
      exact alistGet_remove_ne r u k h
    · rw [if_neg hz]
      exact alistGet_put_ne r u k (alistRemove cs d) h

theorem setID_get_ne (w : World) (sid : Nat) (u d : Int) (k : Nat)
    (h : k ≠ sid) : (setID w sid u d).store.get? k = w.store.get? k := by
  unfold setID
  cases hg : w.store.get? sid with
  | none => rfl
  | some s =>
    dsimp only
    rw [List.get?_set_ne _ _ (fun he => h he.symm)]

theorem clientEnqueue_idStat (w : World) (sid : Nat) (m : Message) (k : Nat) :
    idStat (clientEnqueue w sid m).1 k = idStat w k := by
  unfold clientEnqueue idStat
  cases hg : w.store.get? sid with
  | none => rfl
  | some s =>
    dsimp only
    by_cases hc : s.closed = true
    · rw [if_pos hc]
    · rw [if_neg hc]
      dsimp only
      by_cases hk : k = sid
      · subst hk
        rw [List.get?_set_eq_of_lt _ (List.get?_eq_some.mp hg).1, hg]
        rfl
      · rw [List.get?_set_ne _ _ (fun he => hk he.symm)]

theorem foreachDeliver_idStat (dv : Int) (m : Message) (l : List (Int × Nat))
    (acc : World × Option Err) (k : Nat) :
    idStat (foreachDeliver dv m acc l).1 k = idStat acc.1 k := by
  induction l generalizing acc with
  | nil => rfl
  | cons p t ih =>
    have hstep : foreachDeliver dv m acc (p :: t) =
        foreachDeliver dv m
          (if dv ≠ 0 ∧ p.1 ≠ dv then acc
           else if isClosed acc.1 p.2 then (acc.1, some Err.clientClosed)
           else clientEnqueue acc.1 p.2 m) t := rfl
    rw [hstep]
    by_cases h1 : dv ≠ 0 ∧ p.1 ≠ dv
    · rw [if_pos h1]
      exact ih acc
    · rw [if_neg h1]
      by_cases h2 : isClosed acc.1 p.2 = true
      · rw [if_pos h2]
        exact ih (acc.1, some Err.clientClosed)
      · rw [if_neg h2]
        rw [ih (clientEnqueue acc.1 p.2 m)]
        exact clientEnqueue_idStat acc.1 p.2 m k

theorem pkgEnqueueMessage_idStat (w : World) (u : Int) (m : Message) (k : Nat) :
    idStat (pkgEnqueueMessage w u m) k = idStat w k := by
  unfold pkgEnqueueMessage enqueueMessage
  cases hg : clientsGet (bumpSent w) u with
  | none => rfl
  | some ds =>
    dsimp only
    by_cases hl : ds.length = 0
    · rw [if_pos hl]
      rfl
    · rw [if_neg hl, if_neg (by simp)]
      exact foreachDeliver_idStat 0 m ds (bumpSent w, none) k

theorem setID_idStat_self (w : World) (sid : Nat) (u d : Int) :
    idStat (setID w sid u d) sid = (idStat w sid).map (fun q => (u, d, q.2.2)) := by
  unfold setID idStat
  cases hg : w.store.get? sid with
  | none =>
    dsimp only
    rw [hg]
    rfl
  | some s =>
    dsimp only
    rw [List.get?_set_eq_of_lt _ (List.get?_eq_some.mp hg).1]
    rfl

theorem exitClient_idStat_self (w : World) (sid : Nat) :
    idStat (exitClient w sid) sid = (idStat w sid).map (fun q => (q.1, q.2.1, true)) := by
  unfold exitClient idStat
  cases hg : w.store.get? sid with
  | none =>
    dsimp only
    rw [hg]
    rfl
  | some s =>
    dsimp only
    rw [List.get?_set_eq_of_lt _ (List.get?_eq_some.mp hg).1]
    rfl

theorem signInConflict_snd (w : World) (u dv : Int) (logged : Devices)
    (esid : Nat) (hex : alistGet logged dv = some esid) :
    (signInConflict w u dv logged).2 = alistRemove logged dv := by
  unfold signInConflict
  rw [hex]

theorem signInConflict_fst_idStat (w : World) (u dv : Int) (logged : Devices)
    (esid : Nat) (hex : alistGet logged dv = some esid) :
    idStat (signInConflict w u dv logged).1 esid =
      some ((genTemp w).1, 0, true) ∨
    (idStat (signInConflict w u dv logged).1 esid = none ∧ idStat w esid = none) := by
  unfold signInConflict
  rw [hex]
  dsimp only
  show idStat (regUpdateDevices (exitClient (clientEnqueue (setID (genTemp w).2 esid
    (genTemp w).1 0) esid kickOutMsg).1 esid) u (alistRemove logged dv)) esid =
      some ((genTemp w).1, 0, true) ∨ _
  have hreg : ∀ v : World, ∀ ds, idStat (regUpdateDevices v u ds) esid = idStat v esid :=
    fun v ds => rfl
  rw [hreg, exitClient_idStat_self, clientEnqueue_idStat, setID_idStat_self]
  cases hq : idStat (genTemp w).2 esid with
  | none =>
    right
    exact ⟨rfl, hq⟩
  | some q =>
    left
    rfl

/-- C1 counterexample: from a fresh manager, connect (temporary id 1000000)
and then call `ClientSignIn(1000000, 1000000, 0)` — the caller-supplied user
id collides with the temporary id, which nothing in the code forbids.  The
call finds a Session already registered at `(1000000, 0)` (the premise of
the claim), evicts it — but the evicted Session *is* the signing-in Session,
so after `clients.delete(tempId, 0)` the slot holds nothing at all, the
registry is empty, the surviving Session is terminated, and `clientOnline`
is 1. -/
theorem c1_counterexample :
    (clientConnected freshWorld).2 = 1000000 ∧
    clientsGet (clientConnected freshWorld).1 1000000 = some [(0, 0)] ∧
    (clientSignIn (clientConnected freshWorld).1 1000000 1000000 0).map
      (fun v => clientsGet v 1000000) = some none ∧
    (clientSignIn (clientConnected freshWorld).1 1000000 1000000 0).map
      (fun v => v.clients) = some [] ∧
    (clientSignIn (clientConnected freshWorld).1 1000000 1000000 0).map
      (fun v => idStat v 0) = some (some (1000000, 0, true)) ∧
    (clientSignIn (clientConnected freshWorld).1 1000000 1000000 0).map
      (fun v => v.clientOnline) = some 1 :=
  ⟨by decide, by decide, by decide, by decide, by decide, by decide⟩

/-- C1 amended: provided the temporary id differs from the user id being
bound (and the evicted Session is a different object than the signing-in
one, at a live store index), a sign-in that finds `(uid, device)` occupied
completes with the slot holding exactly the new Session taken from the
temporary entry, while the evicted Session's identity has been reassigned
to the freshly generated temporary id `(w.nextTemp, 0)` and its termination
has been requested.  Slot uniqueness itself is structural: a `Devices` map
holds at most one session per key. -/
theorem c1_evictionMutex (w : World) (id u dv : Int) (tempDs logged : Devices)
    (csid esid : Nat)
    (hg : clientsGet w id = some tempDs) (hc : alistGet tempDs 0 = some csid)
    (hgu : clientsGet w u = some logged) (hex : alistGet logged dv = some esid)
    (hne : id ≠ u) (hses : esid ≠ csid) (hlen : esid < w.store.length) :
    (clientSignIn w id u dv).map
      (fun v => (clientsGet v u).map (fun ds2 => alistGet ds2 dv)) =
      some (some (some csid)) ∧
    (clientSignIn w id u dv).map (fun v => idStat v esid) =
      some (some (w.nextTemp, 0, true)) := by
  have hstep : clientSignIn w id u dv =
      some (signInFinish (clientsDelete (setID (signInBind w u dv csid) csid u dv) id 0)) := by
    unfold clientSignIn
    rw [hg]
    dsimp only
    rw [if_neg (by simpa using clientsGet_ne_nil hg), hc]
  have hbind : alistGet (signInBind w u dv csid).clients u =
      some (alistPut (alistRemove logged dv) dv csid) := by
    unfold signInBind
    rw [hgu]
    dsimp only
    rw [regUpdateDevices_clients, alistGet_put_self,
      signInConflict_snd w u dv logged esid hex]
  constructor
  · rw [hstep]
    refine congrArg some ?_
    have hclients : (signInFinish (clientsDelete (setID (signInBind w u dv csid)
        csid u dv) id 0)).clients = clientsDeleteMap (signInBind w u dv csid).clients id 0 := by
      rw [signInFinish_clients, clientsDelete_clients, setID_clients]
    have hget : alistGet (clientsDeleteMap (signInBind w u dv csid).clients id 0) u
        = some (alistPut (alistRemove logged dv) dv csid) := by
      rw [clientsDeleteMap_get_ne _ id 0 u (Ne.symm hne), hbind]
    show (clientsGet (signInFinish (clientsDelete (setID (signInBind w u dv csid)
      csid u dv) id 0)) u).map (fun ds2 => alistGet ds2 dv) = some (some csid)
    unfold clientsGet
    rw [hclients, hget]
    dsimp only
    rw [if_pos (by
      intro h0
      exact alistPut_ne_nil (alistRemove logged dv) dv csid (List.length_eq_zero.mp h0))]
    rw [Option.map_some', alistGet_put_self]
  · rw [hstep]
    refine congrArg some ?_
    show idStat (signInFinish (clientsDelete (setID (signInBind w u dv csid)
      csid u dv) id 0)) esid = some (w.nextTemp, 0, true)
    have hsf : ∀ v : World, idStat (signInFinish v) esid = idStat v esid := by
      intro v
      unfold idStat
      rw [signInFinish_store]
    have hcd : ∀ (v : World) (a b : Int), idStat (clientsDelete v a b) esid = idStat v esid :=
      fun v a b => rfl
    rw [hsf, hcd]
    have hsid : idStat (setID (signInBind w u dv csid) csid u dv) esid
        = idStat (signInBind w u dv csid) esid := by
      unfold idStat
      rw [setID_get_ne _ csid u dv esid hses]
    rw [hsid]
    have hbindst : idStat (signInBind w u dv csid) esid
        = idStat (signInConflict w u dv logged).1 esid := by
      unfold signInBind
      rw [hgu]
      dsimp only
      have hru : ∀ (v : World) (ds : Devices),
          idStat (regUpdateDevices v u ds) esid = idStat v esid := fun v ds => rfl
      rw [hru]
      by_cases hsz : (signInConflict w u dv logged).2.length > 0
      · rw [if_pos hsz, pkgEnqueueMessage_idStat]
      · rw [if_neg hsz]
    rw [hbindst]
    rcases signInConflict_fst_idStat w u dv logged esid hex with hl | ⟨h1, h2⟩
    · rw [hl]
      rfl
    · exfalso
      unfold idStat at h2
      cases hq : w.store.get? esid with
      | some s =>
        rw [hq] at h2
        simp at h2
      | none =>
        have := List.get?_eq_none.mp hq
        omega

theorem c1_evictionMutex_witness :
    (clientSignIn pendingSecondWorld 1000001 5 1).map
      (fun v => (clientsGet v 5).map (fun ds2 => alistGet ds2 1)) =
      some (some (some 1)) ∧
    (clientSignIn pendingSecondWorld 1000001 5 1).map (fun v => idStat v 0) =
      some (some (pendingSecondWorld.nextTemp, 0, true)) :=
  c1_evictionMutex pendingSecondWorld 1000001 5 1 [(0, 1)] [(1, 0)] 1 0
    (by decide) (by decide) (by decide) (by decide) (by decide) (by decide) (by decide)

end GlideIM
